import Mathlib

/-!
Verification development for the telegram relay repository.

Python strings are modelled as `List Char`; the sqlite tables of
`database.py`, `clean_monitor.py` and `user_monitor.py` are modelled as
association lists; fallible operations return `Option`.  The relay
pipelines of `main.py`, `clean_monitor.py` and `user_monitor.py` are
modelled as pure functions that additionally return the ordered list of
observable events (extension check, ledger check, download, sequence
allocation, publish, sleep, ledger write, audit) exactly in the order the
source performs them.  Network calls (download, publish) are driven by a
scripted oracle: a list of publish outcomes, one consumed per publish
attempt, which makes the unbounded FloodWait retry recursion structural.
-/

/-! ### Digits and zero padded formatting (Python f-string {n:04d}) -/

/-- One decimal digit character for n % 10. -/
def digChar (n : Nat) : Char :=
  match n % 10 with
  | 0 => '0'
  | 1 => '1'
  | 2 => '2'
  | 3 => '3'
  | 4 => '4'
  | 5 => '5'
  | 6 => '6'
  | 7 => '7'
  | 8 => '8'
  | _ => '9'

/-- Decimal digit list of a natural number, fuelled recursion. -/
def natDigitsCore : Nat → Nat → List Char → List Char
  | 0, _, acc => acc
  | fuel + 1, n, acc =>
    if n < 10 then digChar n :: acc
    else natDigitsCore fuel (n / 10) (digChar n :: acc)

/-- Decimal representation of a natural number, as Python str(n). -/
def natDigits (n : Nat) : List Char := natDigitsCore (n + 1) n []

/-- Python format {n:04d} for a natural number: zero pad to width 4. -/
def seq4 (n : Nat) : List Char :=
  if (natDigits n).length < 4 then
    List.replicate (4 - (natDigits n).length) '0' ++ natDigits n
  else natDigits n

/-! ### file_namer.py: clean_filename, generate_new_filename, extract_original_name -/

/-- The characters removed by file_namer.py line 23. -/
def forbiddenChars : List Char := ['<', '>', ':', '"', '/', '\\', '|', '?', '*']

def isForbidden (c : Char) : Bool := forbiddenChars.contains c

/-- ASCII whitespace, the characters Python re's backslash-s matches in ASCII range. -/
def isWs (c : Char) : Bool :=
  c == ' ' || c == '\t' || c == '\n' || c == '\r' || c == '\x0b' || c == '\x0c'

/-- No two adjacent whitespace characters occur in the list. -/
def noAdjWs : List Char → Bool
  | [] => true
  | [_] => true
  | a :: b :: r => (!(isWs a && isWs b)) && noAdjWs (b :: r)

/-- re.sub removing every forbidden character (file_namer.py line 23). -/
def removeInvalid : List Char → List Char
  | [] => []
  | c :: rest => if isForbidden c then removeInvalid rest else c :: removeInvalid rest

/-- Scanner for re.sub collapsing each whitespace run to one space
(file_namer.py line 24).  The flag records whether the previous character
belongs to a whitespace run already replaced. -/
def collapseAux : Bool → List Char → List Char
  | _, [] => []
  | inWs, c :: rest =>
    if isWs c then
      if inWs then collapseAux true rest else ' ' :: collapseAux true rest
    else c :: collapseAux false rest

def collapseWs (s : List Char) : List Char := collapseAux false s

/-- Python str.strip(): drop leading and trailing whitespace. -/
def pyStrip (s : List Char) : List Char :=
  ((s.dropWhile isWs).reverse.dropWhile isWs).reverse

/-- The sanitized base name before the length cap (file_namer.py lines 23-24). -/
def strippedBase (s : List Char) : List Char := pyStrip (collapseWs (removeInvalid s))

/-- Length cap of the sanitized base name (file_namer.py lines 27-28). -/
def limitLen (s : List Char) : List Char := if s.length > 50 then s.take 50 else s

/-- Full sanitization of a base name (file_namer.py lines 22-28). -/
def cleanBase (s : List Char) : List Char := limitLen (strippedBase s)

/-- Python rsplit at the last dot: (name, ext); ext = [] when no dot exists
(file_namer.py lines 17-20 and 38-41). -/
def splitExtLast (s : List Char) : List Char × List Char :=
  if s.contains '.' then
    (((s.reverse.dropWhile (fun c => c != '.')).drop 1).reverse,
     (s.reverse.takeWhile (fun c => c != '.')).reverse)
  else (s, [])

/-- FileNamingSystem.clean_filename (file_namer.py lines 14-30). -/
def clean_filename (s : List Char) : List Char :=
  let p := splitExtLast s
  let nm := cleanBase p.1
  if p.2.isEmpty then nm else nm ++ '.' :: p.2

/-- FileNamingSystem.generate_new_filename (file_namer.py lines 32-59);
pfx and dst are the configured prefix string and destination id. -/
def generate_new_filename (pfx dst : List Char) (showSeq : Bool)
    (orig : List Char) (seqNum : Nat) : List Char :=
  let cleaned := clean_filename orig
  let p := splitExtLast cleaned
  let base0 := if showSeq then pfx ++ seq4 seqNum ++ '_' :: dst else pfx ++ dst
  let base1 := if p.1.length > 0 then base0 ++ '_' :: p.1.take 20 else base0
  if p.2.isEmpty then base1 else base1 ++ '.' :: p.2

/-- Backtracking tail of the anchored regex of extract_original_name:
after the literal prefix, backslash-d-plus tries k digits greedily from the
largest k downward, then the literal underscore, destination id, underscore
must follow; on success the remainder after the match is returned. -/
def regexTail (dst : List Char) : Nat → List Char → Option (List Char)
  | 0, _ => none
  | k + 1, s1 =>
    if List.isPrefixOf ('_' :: dst ++ ['_']) (s1.drop (k + 1)) then
      some (s1.drop ((k + 1) + (dst.length + 2)))
    else regexTail dst k s1

/-- FileNamingSystem.extract_original_name (file_namer.py lines 61-73). -/
def extract_original_name (pfx dst s : List Char) : Option (List Char) :=
  if List.isPrefixOf pfx s then
    let s1 := s.drop pfx.length
    regexTail dst (s1.takeWhile Char.isDigit).length s1
  else none

/-! ### config.py and the extension filter -/

def pyLower (s : List Char) : List Char := s.map Char.toLower

/-- config.py line 15: the configured target extension is lowercased at load. -/
def configLowerExt (raw : List Char) : List Char := pyLower raw

/-- The extension filter of process_message (main.py line 249,
clean_monitor.py line 222, user_monitor.py line 231):
original_filename.lower().endswith(target_extension). -/
def extMatches (fn cfgExt : List Char) : Bool := List.isSuffixOf cfgExt (pyLower fn)

/-! ### database.py: DatabaseManager over the sqlite tables -/

/-- A row of the processed_files table (database.py lines 19-29). -/
structure ProcRow where
  file_hash : List Char
  original_filename : List Char
  new_filename : List Char
  sequence_number : Nat
  channel_username : List Char
  file_size : Nat
deriving DecidableEq

/-- The state kept by DatabaseManager: counters, processed_files,
activity_log tables. -/
structure MainDb where
  counters : List (List Char × Nat)
  processed : List ProcRow
  activity : List (List Char × List Char)
deriving DecidableEq

def fileCounter : List Char := "file_counter".data

/-- SELECT counter_value FROM counters WHERE counter_name = ? -/
def lookupCounter (name : List Char) (l : List (List Char × Nat)) : Option Nat :=
  (l.find? (fun p => p.1 == name)).map (fun p => p.2)

/-- UPDATE counters SET counter_value = ? WHERE counter_name = ?;
a no-op when no row has that name, exactly as the SQL UPDATE. -/
def updateCounter (name : List Char) (v : Nat) (l : List (List Char × Nat)) :
    List (List Char × Nat) :=
  l.map (fun p => if p.1 == name then (p.1, v) else p)

/-- DatabaseManager.init_counter (database.py lines 68-80): insert a row
with value 0 unless one exists. -/
def init_counter (name : List Char) (db : MainDb) : MainDb :=
  if (lookupCounter name db.counters).isSome then db
  else { db with counters := db.counters ++ [(name, 0)] }

/-- DatabaseManager.get_next_sequence_number (database.py lines 82-99):
read current (0 when no row), add one, UPDATE, return the new value. -/
def get_next_sequence_number (name : List Char) (db : MainDb) : Nat × MainDb :=
  let cur := (lookupCounter name db.counters).getD 0
  let nv := cur + 1
  (nv, { db with counters := updateCounter name nv db.counters })

/-- DatabaseManager.get_current_sequence_number (database.py lines 101-108). -/
def get_current_sequence_number (name : List Char) (db : MainDb) : Nat :=
  (lookupCounter name db.counters).getD 0

/-- k successive get_next_sequence_number calls, collecting the returned values. -/
def nextIter (name : List Char) : Nat → MainDb → List Nat × MainDb
  | 0, db => ([], db)
  | k + 1, db =>
    let r := get_next_sequence_number name db
    let rest := nextIter name k r.2
    (r.1 :: rest.1, rest.2)

/-- DatabaseManager.is_file_processed (database.py lines 110-117). -/
def is_file_processed (h : List Char) (db : MainDb) : Bool :=
  db.processed.any (fun r => r.file_hash == h)

/-- DatabaseManager.save_processed_file (database.py lines 119-130):
a plain INSERT into a table whose PRIMARY KEY is file_hash; inserting an
existing key raises sqlite IntegrityError, modelled as none. -/
def save_processed_file (r : ProcRow) (db : MainDb) : Option MainDb :=
  if db.processed.any (fun q => q.file_hash == r.file_hash) then none
  else some { db with processed := db.processed ++ [r] }

/-! ### clean_monitor.py: its own processed_files table -/

/-- A row of clean_monitor.py's processed_files table (lines 53-61). -/
structure CleanRow where
  file_hash : List Char
  original_message_id : Nat
  channel_id : Nat
  file_name : List Char
deriving DecidableEq

/-- CleanFileMonitor.is_file_processed (clean_monitor.py lines 72-80). -/
def clean_is_processed (h : List Char) (tbl : List CleanRow) : Bool :=
  tbl.any (fun r => r.file_hash == h)

/-- CleanFileMonitor.mark_file_as_processed (clean_monitor.py lines 82-91):
INSERT OR REPLACE, i.e. delete any row with the same key and insert the new
one: last write wins, never an error. -/
def mark_file_as_processed (r : CleanRow) (tbl : List CleanRow) : List CleanRow :=
  tbl.filter (fun q => !(q.file_hash == r.file_hash)) ++ [r]

/-- The row stored in clean_monitor.py's table for a fingerprint. -/
def clean_lookup (h : List Char) (tbl : List CleanRow) : Option CleanRow :=
  tbl.find? (fun r => r.file_hash == h)

/-! ### Messages, documents, fingerprints -/

/-- A Telethon document as the monitors consume it: remote id, byte size,
upload timestamp, and the optional DocumentAttributeFilename value. -/
structure Document where
  docId : Nat
  size : Nat
  date : Nat
  filename : Option (List Char)
deriving DecidableEq

/-- A message: its id, its channel id, and its document when the media is a
MessageMediaDocument. -/
structure Msg where
  msgId : Nat
  chanId : Nat
  media : Option Document
deriving DecidableEq

/-- AdvancedTelegramMonitor.get_file_hash (main.py lines 55-60):
f-string of id, size and the document timestamp. -/
def mainFileHash (d : Document) : List Char :=
  natDigits d.docId ++ '_' :: natDigits d.size ++ '_' :: natDigits d.date

/-- CleanFileMonitor.get_file_hash (clean_monitor.py lines 66-70):
f-string of id and size only. -/
def cleanFileHash (d : Document) : List Char :=
  natDigits d.docId ++ '_' :: natDigits d.size

/-! ### Pipeline events and the publish oracle -/

/-- Outcome of one publish (send_file / forward_messages) attempt:
success, FloodWaitError with its seconds, or a generic exception. -/
inductive PubResult where
  | ok
  | flood (n : Nat)
  | err
deriving DecidableEq

/-- The caption template data: the fields interpolated into the caption
string (new filename, sequence number, destination id, size, the
datetime.now() timestamp); the caption is determined by these fields. -/
structure Caption where
  capFile : List Char
  capSeq : Option Nat
  capDest : List Char
  capSize : Option Nat
  capTime : Nat
deriving DecidableEq

/-- Observable events of a pipeline run, in execution order. -/
inductive Ev where
  | extCheck (fn : List Char) (ok : Bool)
  | dupCheck (fp : List Char) (dup : Bool)
  | msgDupCheck (msgId chanId : Nat) (dup : Bool)
  | download (ok : Bool)
  | seqAlloc (n : Nat)
  | publish (file fn : List Char) (cap : Caption)
  | forwardEv (msgId : Nat)
  | sleepEv (n : Nat)
  | ledgerWrite
  | audit (action : List Char)
deriving DecidableEq

def actFileSent : List Char := "FILE_SENT".data
def actSendError : List Char := "SEND_ERROR".data
def actForwardSuccess : List Char := "FORWARD_SUCCESS".data

/-- Scripted network behaviour: one PubResult per publish attempt, one
datetime.now() value per send invocation, and the download outcome. -/
structure Oracle where
  pubs : List PubResult
  times : List Nat
  downloadOk : Bool
  dlPath : List Char
  dlSize : Nat
deriving DecidableEq

/-! ### main.py: send_file_with_new_name and process_message -/

/-- AdvancedTelegramMonitor.send_file_with_new_name (main.py lines 154-228).
Order as in the source: allocate the next sequence number, generate the new
filename, read the file, build the caption, publish; on success compute the
file hash, save_processed_file (an IntegrityError there is caught by the
same generic handler), log FILE_SENT; on FloodWaitError sleep the reported
seconds and recurse; on generic failure log SEND_ERROR and return false. -/
def sendFileMain (pfx dst : List Char) (showSeq : Bool)
    (filePath origName : List Char) (fileSizeB : Nat) (chan : List Char)
    (m : Msg) : List PubResult → List Nat → MainDb → Bool × MainDb × List Ev
  | [], _, db => (false, db, [])
  | pr :: prs, times, db =>
    let sdb := get_next_sequence_number fileCounter db
    let seqn := sdb.1
    let db1 := sdb.2
    let newFn := generate_new_filename pfx dst showSeq origName seqn
    let cap : Caption := ⟨newFn, some seqn, dst, some fileSizeB, times.headD 0⟩
    match pr with
    | PubResult.ok =>
      let fh := match m.media with
        | some d => mainFileHash d
        | none => natDigits (times.headD 0) ++ '_' :: origName
      match save_processed_file ⟨fh, origName, newFn, seqn, chan, fileSizeB⟩ db1 with
      | some db2 =>
        (true, { db2 with activity := db2.activity ++ [(actFileSent, newFn)] },
         [Ev.seqAlloc seqn, Ev.publish filePath newFn cap, Ev.ledgerWrite,
          Ev.audit actFileSent])
      | none =>
        (false, { db1 with activity := db1.activity ++ [(actSendError, [])] },
         [Ev.seqAlloc seqn, Ev.publish filePath newFn cap, Ev.audit actSendError])
    | PubResult.flood n =>
      let r := sendFileMain pfx dst showSeq filePath origName fileSizeB chan m
                 prs times.tail db1
      (r.1, r.2.1,
       Ev.seqAlloc seqn :: Ev.publish filePath newFn cap :: Ev.sleepEv n :: r.2.2)
    | PubResult.err =>
      (false, { db1 with activity := db1.activity ++ [(actSendError, [])] },
       [Ev.seqAlloc seqn, Ev.publish filePath newFn cap, Ev.audit actSendError])

/-- AdvancedTelegramMonitor.process_message (main.py lines 230-285):
media present, filename attribute present, extension check, fingerprint
check against the ledger, download, then send_file_with_new_name. -/
def mainProcess (targetExt pfx dst : List Char) (showSeq : Bool) (m : Msg)
    (chanName : List Char) (orc : Oracle) (db : MainDb) :
    Bool × MainDb × List Ev :=
  match m.media with
  | none => (false, db, [])
  | some d =>
    match d.filename with
    | none => (false, db, [])
    | some fn =>
      if !(extMatches fn targetExt) then (false, db, [Ev.extCheck fn false])
      else
        let fh := mainFileHash d
        if is_file_processed fh db then
          (false, db, [Ev.extCheck fn true, Ev.dupCheck fh true])
        else
          if !orc.downloadOk then
            (false, db, [Ev.extCheck fn true, Ev.dupCheck fh false, Ev.download false])
          else
            let r := sendFileMain pfx dst showSeq orc.dlPath fn orc.dlSize chanName m
                       orc.pubs orc.times db
            (r.1, r.2.1,
             Ev.extCheck fn true :: Ev.dupCheck fh false :: Ev.download true :: r.2.2)

/-! ### clean_monitor.py: send_clean_file and process_message -/

/-- CleanFileMonitor.send_clean_file (clean_monitor.py lines 157-198):
read the file, build the caption (whose date field is datetime.now()),
publish; on FloodWaitError sleep the reported seconds and recurse with the
same path and filename; on generic failure return false. -/
def sendCleanFile (dst filePath fn : List Char) :
    List PubResult → List Nat → Bool × List Ev
  | [], _ => (false, [])
  | pr :: prs, times =>
    let cap : Caption := ⟨fn, none, dst, none, times.headD 0⟩
    match pr with
    | PubResult.ok => (true, [Ev.publish filePath fn cap])
    | PubResult.flood n =>
      let r := sendCleanFile dst filePath fn prs times.tail
      (r.1, Ev.publish filePath fn cap :: Ev.sleepEv n :: r.2)
    | PubResult.err => (false, [Ev.publish filePath fn cap])

/-- CleanFileMonitor.process_message (clean_monitor.py lines 200-261):
media, filename attribute, extension check, fingerprint check, download,
send; only on send success is the file marked processed. -/
def cleanProcess (targetExt dst : List Char) (m : Msg) (orc : Oracle)
    (tbl : List CleanRow) : Bool × List CleanRow × List Ev :=
  match m.media with
  | none => (false, tbl, [])
  | some d =>
    match d.filename with
    | none => (false, tbl, [])
    | some fn =>
      if !(extMatches fn targetExt) then (false, tbl, [Ev.extCheck fn false])
      else
        let fh := cleanFileHash d
        if clean_is_processed fh tbl then
          (false, tbl, [Ev.extCheck fn true, Ev.dupCheck fh true])
        else
          if !orc.downloadOk then
            (false, tbl, [Ev.extCheck fn true, Ev.dupCheck fh false, Ev.download false])
          else
            let r := sendCleanFile dst orc.dlPath fn orc.pubs orc.times
            if r.1 then
              (true, mark_file_as_processed ⟨fh, m.msgId, m.chanId, fn⟩ tbl,
               Ev.extCheck fn true :: Ev.dupCheck fh false :: Ev.download true ::
                 (r.2 ++ [Ev.ledgerWrite]))
            else
              (false, tbl,
               Ev.extCheck fn true :: Ev.dupCheck fh false :: Ev.download true :: r.2)

/-! ### user_monitor.py: forward_message and process_message -/

/-- TelegramChannelMonitor.mark_message_as_sent (user_monitor.py lines
111-131): INSERT OR IGNORE keyed by (message_id, channel_id). -/
def mark_message_as_sent (mid cid : Nat) (sent : List (Nat × Nat)) :
    List (Nat × Nat) :=
  if sent.contains (mid, cid) then sent else sent ++ [(mid, cid)]

/-- TelegramChannelMonitor.forward_message (user_monitor.py lines 245-271):
forward, then record the message as sent and log; on FloodWaitError sleep
and recurse; other errors are only logged. -/
def forwardMsg (mid cid : Nat) (sent : List (Nat × Nat)) :
    List PubResult → List (Nat × Nat) × List Ev
  | [] => (sent, [])
  | pr :: prs =>
    match pr with
    | PubResult.ok =>
      (mark_message_as_sent mid cid sent,
       [Ev.forwardEv mid, Ev.ledgerWrite, Ev.audit actForwardSuccess])
    | PubResult.flood n =>
      let r := forwardMsg mid cid sent prs
      (r.1, Ev.forwardEv mid :: Ev.sleepEv n :: r.2)
    | PubResult.err => (sent, [Ev.forwardEv mid])

/-- TelegramChannelMonitor.process_message (user_monitor.py lines 210-243):
media check, then the sent-messages ledger check keyed by message id and
channel id, then filename extraction, then the extension check, then the
forward; note the ledger check precedes the extension check here. -/
def userProcess (targetExt : List Char) (m : Msg) (sent : List (Nat × Nat))
    (pubs : List PubResult) : Bool × List (Nat × Nat) × List Ev :=
  match m.media with
  | none => (false, sent, [])
  | some d =>
    if sent.contains (m.msgId, m.chanId) then
      (false, sent, [Ev.msgDupCheck m.msgId m.chanId true])
    else
      match d.filename with
      | none => (false, sent, [Ev.msgDupCheck m.msgId m.chanId false])
      | some fn =>
        if !(extMatches fn targetExt) then
          (false, sent, [Ev.msgDupCheck m.msgId m.chanId false, Ev.extCheck fn false])
        else
          let r := forwardMsg m.msgId m.chanId sent pubs
          (true, r.1,
           Ev.msgDupCheck m.msgId m.chanId false :: Ev.extCheck fn true :: r.2)

/-! ### Trace order predicates -/

def isExtPass : Ev → Bool
  | Ev.extCheck _ ok => ok
  | _ => false

def isDupCheckEv : Ev → Bool
  | Ev.dupCheck _ _ => true
  | Ev.msgDupCheck _ _ _ => true
  | _ => false

def isDupFree : Ev → Bool
  | Ev.dupCheck _ dup => !dup
  | _ => false

def isDownloadEv : Ev → Bool
  | Ev.download _ => true
  | _ => false

def isExtCheckEv : Ev → Bool
  | Ev.extCheck _ _ => true
  | _ => false

def isPublishEv : Ev → Bool
  | Ev.publish _ _ _ => true
  | _ => false

def pubFilename : Ev → List Char
  | Ev.publish _ fn _ => fn
  | _ => []

/-- Every duplicate-ledger check in the trace is preceded by a passed
extension check; the flag records whether one was seen. -/
def extBeforeDup : Bool → List Ev → Bool
  | _, [] => true
  | seen, e :: rest =>
    if isDupCheckEv e then seen && extBeforeDup seen rest
    else extBeforeDup (seen || isExtPass e) rest

/-- Every download in the trace is preceded by a fingerprint check that
found the fingerprint absent. -/
def dupBeforeDownload : Bool → List Ev → Bool
  | _, [] => true
  | seen, e :: rest =>
    if isDownloadEv e then seen && dupBeforeDownload seen rest
    else dupBeforeDownload (seen || isDupFree e) rest

/-- Every extension check in the trace is preceded by a message-keyed
duplicate-ledger check. -/
def msgDupBeforeExt : Bool → List Ev → Bool
  | _, [] => true
  | seen, e :: rest =>
    if isExtCheckEv e then seen && msgDupBeforeExt seen rest
    else msgDupBeforeExt (seen || isDupCheckEv e) rest

def noDownload (tr : List Ev) : Bool := tr.all (fun e => !isDownloadEv e)

/-! ### Helper lemmas: digits and the extract round trip -/

theorem digChar_isDigit (n : Nat) : (digChar n).isDigit = true := by
  unfold digChar
  split <;> decide

theorem natDigitsCore_digits (fuel : Nat) :
    ∀ (n : Nat) (acc : List Char), (∀ c ∈ acc, c.isDigit = true) →
      ∀ c ∈ natDigitsCore fuel n acc, c.isDigit = true := by
  induction fuel with
  | zero => intro n acc hacc c hc; exact hacc c hc
  | succ fuel ih =>
    intro n acc hacc c hc
    unfold natDigitsCore at hc
    by_cases h : n < 10
    · simp only [h, if_pos] at hc
      rcases List.mem_cons.mp hc with rfl | hmem
      · exact digChar_isDigit n
      · exact hacc c hmem
    · simp only [h, if_neg, not_false_iff] at hc
      refine ih (n / 10) (digChar n :: acc) ?_ c hc
      intro x hx
      rcases List.mem_cons.mp hx with rfl | hmem
      · exact digChar_isDigit n
      · exact hacc x hmem

theorem natDigits_digits (n : Nat) : ∀ c ∈ natDigits n, c.isDigit = true := by
  intro c hc
  exact natDigitsCore_digits (n + 1) n [] (by intro x hx; cases hx) c hc

theorem seq4_digits (n : Nat) : ∀ c ∈ seq4 n, c.isDigit = true := by
  intro c hc
  unfold seq4 at hc
  split at hc
  · rcases List.mem_append.mp hc with hrep | hdig
    · have := List.eq_of_mem_replicate hrep
      subst this
      decide
    · exact natDigits_digits n c hdig
  · exact natDigits_digits n c hc

theorem natDigitsCore_length (fuel : Nat) :
    ∀ (n : Nat) (acc : List Char),
      acc.length ≤ (natDigitsCore fuel n acc).length := by
  induction fuel with
  | zero => intro n acc; exact Nat.le_refl _
  | succ fuel ih =>
    intro n acc
    unfold natDigitsCore
    by_cases h : n < 10
    · simp [h]
    · simp only [h, if_neg, not_false_iff]
      calc acc.length ≤ (digChar n :: acc).length := by simp
        _ ≤ _ := ih (n / 10) (digChar n :: acc)

theorem seq4_length_pos (n : Nat) : 1 ≤ (seq4 n).length := by
  unfold seq4
  split
  · simp only [List.length_append, List.length_replicate]
    omega
  · rename_i h
    simp only [not_lt] at h
    omega

theorem isPrefixOf_self_append (l m : List Char) :
    List.isPrefixOf l (l ++ m) = true := by
  induction l with
  | nil => simp [List.isPrefixOf]
  | cons a as ih => simp [List.isPrefixOf, ih]

theorem extract_on_generated (pfx dst R : List Char) (n : Nat) :
    extract_original_name pfx dst (pfx ++ (seq4 n ++ '_' :: (dst ++ '_' :: R)))
      = some R := by
  unfold extract_original_name
  rw [isPrefixOf_self_append]
  simp only [if_pos, List.drop_left]
  have htw : (seq4 n ++ '_' :: (dst ++ '_' :: R)).takeWhile Char.isDigit = seq4 n := by
    rw [List.takeWhile_append_of_pos (by intro a ha; exact seq4_digits n a ha)]
    simp [List.takeWhile]
  rw [htw]
  obtain ⟨k, hk⟩ : ∃ k, (seq4 n).length = k + 1 :=
    ⟨(seq4 n).length - 1, by have := seq4_length_pos n; omega⟩
  rw [hk]
  have hdrop : (seq4 n ++ '_' :: (dst ++ '_' :: R)).drop (k + 1)
      = ('_' :: dst ++ ['_']) ++ R := by
    rw [← hk, List.drop_left]
    simp
  unfold regexTail
  rw [hdrop, isPrefixOf_self_append]
  simp only [if_pos]
  have hlenpat : ('_' :: dst ++ ['_']).length = dst.length + 2 := by simp
  have hdrop2 : (seq4 n ++ '_' :: (dst ++ '_' :: R)).drop ((k + 1) + (dst.length + 2))
      = R := by
    rw [← List.drop_drop, ← hk, List.drop_left, ← hlenpat]
    have : ('_' :: (dst ++ '_' :: R)) = ('_' :: dst ++ ['_']) ++ R := by simp
    rw [this, List.drop_left]
  rw [hdrop2]

theorem generate_decomp (pfx dst orig : List Char) (seqNum : Nat)
    (h : (splitExtLast (clean_filename orig)).1 ≠ []) :
    generate_new_filename pfx dst true orig seqNum =
      pfx ++ (seq4 seqNum ++ '_' :: (dst ++ '_' ::
        ((splitExtLast (clean_filename orig)).1.take 20 ++
         (if (splitExtLast (clean_filename orig)).2.isEmpty then []
          else '.' :: (splitExtLast (clean_filename orig)).2)))) := by
  unfold generate_new_filename
  have hlen : 0 < (splitExtLast (clean_filename orig)).1.length :=
    List.length_pos.mpr h
  simp only [if_pos, hlen, if_true]
  split
  · simp
  · simp

theorem isSuffixOf_iff_exists (t s : List Char) :
    List.isSuffixOf t s = true ↔ ∃ pre, s = pre ++ t := by
  rw [List.isSuffixOf_iff_suffix]
  constructor
  · rintro ⟨pre, hpre⟩
    exact ⟨pre, hpre.symm⟩
  · rintro ⟨pre, rfl⟩
    exact ⟨pre, rfl⟩

/-! ### Helper lemmas: sanitization (file_namer.py lines 22-28) -/

theorem mem_removeInvalid (s : List Char) (x : Char) (hx : x ∈ removeInvalid s) :
    x ∈ s ∧ isForbidden x = false := by
  induction s with
  | nil => cases hx
  | cons c rest ih =>
    unfold removeInvalid at hx
    by_cases h : isForbidden c
    · simp only [h, if_pos] at hx
      rcases ih hx with ⟨h1, h2⟩
      exact ⟨List.mem_cons_of_mem c h1, h2⟩
    · simp only [h, if_neg, not_false_iff] at hx
      rcases List.mem_cons.mp hx with rfl | hmem
      · exact ⟨List.mem_cons_self x rest, by simpa using h⟩
      · rcases ih hmem with ⟨h1, h2⟩
        exact ⟨List.mem_cons_of_mem c h1, h2⟩

theorem mem_collapseAux (s : List Char) :
    ∀ (b : Bool) (x : Char), x ∈ collapseAux b s →
      (x ∈ s ∧ isWs x = false) ∨ x = ' ' := by
  induction s with
  | nil => intro b x hx; cases hx
  | cons c rest ih =>
    intro b x hx
    unfold collapseAux at hx
    by_cases h : isWs c = true
    · rw [if_pos h] at hx
      cases b with
      | true =>
        rw [if_pos rfl] at hx
        rcases ih true x hx with ⟨h1, h2⟩ | h3
        · exact Or.inl ⟨List.mem_cons_of_mem c h1, h2⟩
        · exact Or.inr h3
      | false =>
        rw [if_neg (by simp)] at hx
        rcases List.mem_cons.mp hx with rfl | hmem
        · exact Or.inr rfl
        · rcases ih true x hmem with ⟨h1, h2⟩ | h3
          · exact Or.inl ⟨List.mem_cons_of_mem c h1, h2⟩
          · exact Or.inr h3
    · rw [if_neg h] at hx
      rcases List.mem_cons.mp hx with rfl | hmem
      · exact Or.inl ⟨List.mem_cons_self x rest, by simpa using h⟩
      · rcases ih false x hmem with ⟨h1, h2⟩ | h3
        · exact Or.inl ⟨List.mem_cons_of_mem c h1, h2⟩
        · exact Or.inr h3

theorem head_collapseAux (s : List Char) :
    ∀ x : Char, (collapseAux true s).head? = some x → isWs x = false := by
  induction s with
  | nil => intro x hx; cases hx
  | cons c rest ih =>
    intro x hx
    unfold collapseAux at hx
    by_cases h : isWs c = true
    · rw [if_pos h, if_pos rfl] at hx
      exact ih x hx
    · rw [if_neg h] at hx
      simp only [List.head?_cons, Option.some.injEq] at hx
      subst hx
      simpa using h

theorem noAdjWs_tail (a : Char) (l : List Char) (h : noAdjWs (a :: l) = true) :
    noAdjWs l = true := by
  cases l with
  | nil => rfl
  | cons b r =>
    unfold noAdjWs at h
    simp only [Bool.and_eq_true] at h
    exact h.2

theorem noAdjWs_cons_of (a : Char) (l : List Char)
    (h1 : ∀ x, l.head? = some x → (isWs a && isWs x) = false)
    (h2 : noAdjWs l = true) : noAdjWs (a :: l) = true := by
  cases l with
  | nil => rfl
  | cons b r =>
    unfold noAdjWs
    simp only [Bool.and_eq_true]
    refine ⟨?_, h2⟩
    have := h1 b rfl
    simp [this]

theorem noAdjWs_collapseAux (s : List Char) :
    ∀ b : Bool, noAdjWs (collapseAux b s) = true := by
  induction s with
  | nil => intro b; rfl
  | cons c rest ih =>
    intro b
    unfold collapseAux
    by_cases h : isWs c = true
    · rw [if_pos h]
      cases b with
      | true =>
        rw [if_pos rfl]
        exact ih true
      | false =>
        rw [if_neg (by simp)]
        refine noAdjWs_cons_of ' ' _ ?_ (ih true)
        intro x hx
        have := head_collapseAux rest x hx
        simp [this]
    · rw [if_neg h]
      refine noAdjWs_cons_of c _ ?_ (ih false)
      intro x _
      have hc : isWs c = false := by simpa using h
      simp [hc]

theorem noAdjWs_of_append_right (l m : List Char)
    (h : noAdjWs (l ++ m) = true) : noAdjWs m = true := by
  induction l with
  | nil => exact h
  | cons a l ih => exact ih (noAdjWs_tail a (l ++ m) h)

theorem noAdjWs_take (l : List Char) :
    ∀ n : Nat, noAdjWs l = true → noAdjWs (l.take n) = true := by
  induction l with
  | nil => intro n _; simp [noAdjWs]
  | cons a l ih =>
    intro n h
    cases n with
    | zero => rfl
    | succ m =>
      simp only [List.take_succ_cons]
      cases l with
      | nil => simp [noAdjWs, List.take_nil]
      | cons b r =>
        cases m with
        | zero => rfl
        | succ m' =>
          unfold noAdjWs at h
          simp only [Bool.and_eq_true] at h
          rcases h with ⟨hab, hrest⟩
          have htail : noAdjWs ((b :: r).take (m' + 1)) = true := ih (m' + 1) hrest
          simp only [List.take_succ_cons] at htail ⊢
          unfold noAdjWs
          simp only [Bool.and_eq_true]
          exact ⟨hab, htail⟩

theorem dropWhile_head_ws (l : List Char) :
    ∀ x : Char, (l.dropWhile isWs).head? = some x → isWs x = false := by
  induction l with
  | nil => intro x hx; cases hx
  | cons c rest ih =>
    intro x hx
    by_cases h : isWs c
    · rw [List.dropWhile_cons_of_pos h] at hx
      exact ih x hx
    · rw [List.dropWhile_cons_of_neg h] at hx
      simp only [List.head?_cons, Option.some.injEq] at hx
      subst hx
      simpa using h

theorem head?_append_of_ne_nil (l r : List Char) (h : l ≠ []) :
    (l ++ r).head? = l.head? := by
  cases l with
  | nil => exact absurd rfl h
  | cons a as => rfl

theorem pyStrip_pfx (s : List Char) :
    ∃ w, s.dropWhile isWs = pyStrip s ++ w := by
  refine ⟨((s.dropWhile isWs).reverse.takeWhile isWs).reverse, ?_⟩
  unfold pyStrip
  conv_lhs => rw [← List.reverse_reverse (s.dropWhile isWs)]
  conv_lhs =>
    rw [← List.takeWhile_append_dropWhile (p := isWs)
      (l := (s.dropWhile isWs).reverse)]
  rw [List.reverse_append]

theorem mem_pyStrip (s : List Char) (x : Char) (hx : x ∈ pyStrip s) : x ∈ s := by
  obtain ⟨w, hw⟩ := pyStrip_pfx s
  have h1 : x ∈ s.dropWhile isWs := by
    rw [hw]
    exact List.mem_append_left w hx
  exact (List.dropWhile_suffix isWs).subset h1

theorem pyStrip_eq_take (s : List Char) :
    pyStrip s = (s.dropWhile isWs).take (pyStrip s).length := by
  obtain ⟨w, hw⟩ := pyStrip_pfx s
  rw [hw, List.take_left]

theorem noAdjWs_pyStrip (s : List Char) (h : noAdjWs s = true) :
    noAdjWs (pyStrip s) = true := by
  have hdws : noAdjWs (s.dropWhile isWs) = true := by
    obtain ⟨t, ht⟩ := List.dropWhile_suffix (l := s) isWs
    rw [← ht] at h
    exact noAdjWs_of_append_right t _ h
  rw [pyStrip_eq_take s]
  exact noAdjWs_take _ _ hdws

theorem head?_pyStrip (s : List Char) (x : Char)
    (hx : (pyStrip s).head? = some x) : isWs x = false := by
  obtain ⟨w, hw⟩ := pyStrip_pfx s
  by_cases hnil : pyStrip s = []
  · rw [hnil] at hx; cases hx
  · refine dropWhile_head_ws s x ?_
    rw [hw, head?_append_of_ne_nil _ _ hnil]
    exact hx

theorem last_pyStrip (s : List Char) (x : Char)
    (hx : (pyStrip s).reverse.head? = some x) : isWs x = false := by
  unfold pyStrip at hx
  rw [List.reverse_reverse] at hx
  exact dropWhile_head_ws (s.dropWhile isWs).reverse x hx

theorem cleanBase_eq_take (s : List Char) :
    cleanBase s = (strippedBase s).take 50 := by
  unfold cleanBase limitLen
  split
  · rfl
  · rename_i h
    rw [List.take_of_length_le (by omega)]

theorem mem_cleanBase (s : List Char) (x : Char) (hx : x ∈ cleanBase s) :
    x ∈ strippedBase s := by
  rw [cleanBase_eq_take] at hx
  exact List.take_subset 50 _ hx

theorem strippedBase_chain (s : List Char) (x : Char)
    (hx : x ∈ strippedBase s) :
    (x ∈ removeInvalid s ∧ isWs x = false) ∨ x = ' ' := by
  unfold strippedBase at hx
  have h1 : x ∈ collapseWs (removeInvalid s) := mem_pyStrip _ x hx
  exact mem_collapseAux (removeInvalid s) false x h1

theorem cleanBase_not_forbidden (s : List Char) (x : Char)
    (hx : x ∈ cleanBase s) : isForbidden x = false := by
  rcases strippedBase_chain s x (mem_cleanBase s x hx) with ⟨h1, _⟩ | rfl
  · exact (mem_removeInvalid s x h1).2
  · decide

theorem cleanBase_ws_space (s : List Char) (x : Char)
    (hx : x ∈ cleanBase s) (hw : isWs x = true) : x = ' ' := by
  rcases strippedBase_chain s x (mem_cleanBase s x hx) with ⟨_, h2⟩ | rfl
  · rw [hw] at h2; cases h2
  · rfl

theorem noAdjWs_cleanBase (s : List Char) : noAdjWs (cleanBase s) = true := by
  rw [cleanBase_eq_take]
  refine noAdjWs_take _ 50 ?_
  exact noAdjWs_pyStrip _ (noAdjWs_collapseAux (removeInvalid s) false)

/-! ### Helper lemmas: counters and ledgers -/

theorem lookup_update_self (name : List Char) (w : Nat) (l : List (List Char × Nat)) :
    (lookupCounter name l).isSome = true →
      lookupCounter name (updateCounter name w l) = some w := by
  induction l with
  | nil => intro h; simp [lookupCounter] at h
  | cons p rest ih =>
    intro h
    by_cases hp : (p.1 == name) = true
    · simp [lookupCounter, updateCounter, List.find?, hp]
    · have h' : (lookupCounter name rest).isSome = true := by
        simpa [lookupCounter, List.find?, hp] using h
      have := ih h'
      simp only [lookupCounter, updateCounter] at this ⊢
      simpa [List.find?, hp] using this

theorem update_of_lookup_none (name : List Char) (w : Nat)
    (l : List (List Char × Nat)) (h : lookupCounter name l = none) :
    updateCounter name w l = l := by
  induction l with
  | nil => rfl
  | cons p rest ih =>
    by_cases hp : (p.1 == name) = true
    · simp [lookupCounter, List.find?, hp] at h
    · have h' : lookupCounter name rest = none := by
        simpa [lookupCounter, List.find?, hp] using h
      unfold updateCounter
      simp only [List.map_cons]
      rw [if_neg hp]
      have := ih h'
      unfold updateCounter at this
      rw [this]

theorem lookup_none_append (name : List Char) (v : Nat)
    (l : List (List Char × Nat)) (h : lookupCounter name l = none) :
    lookupCounter name (l ++ [(name, v)]) = some v := by
  induction l with
  | nil => simp [lookupCounter]
  | cons p rest ih =>
    by_cases hp : (p.1 == name) = true
    · simp [lookupCounter, List.find?, hp] at h
    · have h' : lookupCounter name rest = none := by
        simpa [lookupCounter, List.find?, hp] using h
      have := ih h'
      simp only [lookupCounter] at this ⊢
      simpa [List.find?, hp] using this

theorem find?_append_of_none {α : Type} (p : α → Bool) (l₁ l₂ : List α)
    (h : ∀ x ∈ l₁, p x = false) :
    (l₁ ++ l₂).find? p = l₂.find? p := by
  induction l₁ with
  | nil => rfl
  | cons a rest ih =>
    have ha : p a = false := h a (List.mem_cons_self a rest)
    simp only [List.cons_append, List.find?, ha]
    exact ih (fun x hx => h x (List.mem_cons_of_mem a hx))

theorem clean_lookup_mark (r : CleanRow) (tbl : List CleanRow) :
    clean_lookup r.file_hash (mark_file_as_processed r tbl) = some r := by
  unfold clean_lookup mark_file_as_processed
  rw [find?_append_of_none]
  · simp [List.find?]
  · intro x hx
    have := (List.mem_filter.mp hx).2
    simpa using this

theorem clean_is_processed_mark_same (h : List Char) (r : CleanRow)
    (tbl : List CleanRow) (hh : r.file_hash = h) :
    clean_is_processed h (mark_file_as_processed r tbl) = true := by
  subst hh
  unfold clean_is_processed mark_file_as_processed
  rw [List.any_append]
  simp

theorem save_none_of_processed (r : ProcRow) (db : MainDb)
    (h : is_file_processed r.file_hash db = true) :
    save_processed_file r db = none := by
  unfold save_processed_file
  unfold is_file_processed at h
  rw [if_pos h]

theorem get_next_of_lookup (db : MainDb) (name : List Char) (v : Nat)
    (h : lookupCounter name db.counters = some v) :
    get_next_sequence_number name db =
      (v + 1, { db with counters := updateCounter name (v + 1) db.counters }) := by
  simp [get_next_sequence_number, h]

theorem lookup_after_next (db : MainDb) (name : List Char) (v : Nat)
    (h : lookupCounter name db.counters = some v) :
    lookupCounter name ((get_next_sequence_number name db).2).counters
      = some (v + 1) := by
  have hs := lookup_update_self name (v + 1) db.counters (by simp [h])
  simpa [get_next_sequence_number, h] using hs

theorem nextIter_spec (name : List Char) (k : Nat) :
    ∀ (db : MainDb) (v : Nat), lookupCounter name db.counters = some v →
      (nextIter name k db).1 = (List.range k).map (fun i => v + 1 + i) ∧
      lookupCounter name ((nextIter name k db).2).counters = some (v + k) := by
  induction k with
  | zero =>
    intro db v h
    exact ⟨rfl, by simpa using h⟩
  | succ k ih =>
    intro db v h
    have h1 : lookupCounter name ((get_next_sequence_number name db).2).counters
        = some (v + 1) := lookup_after_next db name v h
    obtain ⟨ha, hb⟩ := ih (get_next_sequence_number name db).2 (v + 1) h1
    constructor
    · show (get_next_sequence_number name db).1 ::
        (nextIter name k (get_next_sequence_number name db).2).1 = _
      rw [ha]
      have hfst : (get_next_sequence_number name db).1 = v + 1 := by
        simp [get_next_sequence_number, h]
      rw [hfst, List.range_succ_eq_map, List.map_cons, List.map_map]
      have hfun : ((fun i => v + 1 + i) ∘ fun i => i + 1) = fun i => v + 1 + 1 + i := by
        funext i
        simp [Function.comp]
        omega
      rw [hfun]
    · show lookupCounter name
        ((nextIter name k (get_next_sequence_number name db).2).2).counters = _
      rw [hb]
      congr 1
      omega

/-! ### Helper lemmas: traces -/

theorem extBeforeDup_true (tr : List Ev) : extBeforeDup true tr = true := by
  induction tr with
  | nil => rfl
  | cons e r ih =>
    unfold extBeforeDup
    split <;> simp [ih]

theorem dupBeforeDownload_true (tr : List Ev) : dupBeforeDownload true tr = true := by
  induction tr with
  | nil => rfl
  | cons e r ih =>
    unfold dupBeforeDownload
    split <;> simp [ih]

theorem msgDupBeforeExt_true (tr : List Ev) : msgDupBeforeExt true tr = true := by
  induction tr with
  | nil => rfl
  | cons e r ih =>
    unfold msgDupBeforeExt
    split <;> simp [ih]

theorem forwardMsg_no_dl_ext (mid cid : Nat) (sent : List (Nat × Nat)) :
    ∀ pubs : List PubResult,
      (forwardMsg mid cid sent pubs).2.all
        (fun e => !isDownloadEv e && !isExtCheckEv e) = true := by
  intro pubs
  induction pubs with
  | nil => rfl
  | cons pr prs ih =>
    unfold forwardMsg
    cases pr with
    | ok => simp [isDownloadEv, isExtCheckEv]
    | flood n =>
      simp only [List.all_cons]
      simpa [isDownloadEv, isExtCheckEv] using ih
    | err => simp [isDownloadEv, isExtCheckEv]

theorem forwardMsg_no_download (mid cid : Nat) (sent : List (Nat × Nat))
    (pubs : List PubResult) :
    noDownload (forwardMsg mid cid sent pubs).2 = true := by
  have h := forwardMsg_no_dl_ext mid cid sent pubs
  unfold noDownload
  simp only [List.all_eq_true] at h ⊢
  intro e he
  have := h e he
  simp only [Bool.and_eq_true] at this
  exact this.1

theorem mainProcess_order (targetExt pfx dst : List Char) (showSeq : Bool)
    (m : Msg) (chanName : List Char) (orc : Oracle) (db : MainDb) :
    extBeforeDup false
        (mainProcess targetExt pfx dst showSeq m chanName orc db).2.2 = true ∧
      dupBeforeDownload false
        (mainProcess targetExt pfx dst showSeq m chanName orc db).2.2 = true := by
  obtain ⟨mid, cid, media⟩ := m
  cases media with
  | none => exact ⟨rfl, rfl⟩
  | some d =>
    obtain ⟨did, dsz, ddate, dfn⟩ := d
    cases dfn with
    | none => exact ⟨rfl, rfl⟩
    | some fn =>
      simp only [mainProcess]
      cases hext : extMatches fn targetExt with
      | false =>
        simp [hext, extBeforeDup, dupBeforeDownload, isDupCheckEv, isExtPass,
          isDownloadEv, isDupFree]
      | true =>
        cases hdup : is_file_processed
            (mainFileHash ⟨did, dsz, ddate, some fn⟩) db with
        | true =>
          simp [hext, hdup, extBeforeDup, dupBeforeDownload, isDupCheckEv,
            isExtPass, isDownloadEv, isDupFree]
        | false =>
          cases hdl : orc.downloadOk with
          | false =>
            simp [hext, hdup, hdl, extBeforeDup, dupBeforeDownload, isDupCheckEv,
              isExtPass, isDownloadEv, isDupFree]
          | true =>
            simp [hext, hdup, hdl, extBeforeDup, dupBeforeDownload, isDupCheckEv,
              isExtPass, isDownloadEv, isDupFree, extBeforeDup_true,
              dupBeforeDownload_true]

theorem cleanProcess_order (targetExt dst : List Char) (m : Msg) (orc : Oracle)
    (tbl : List CleanRow) :
    extBeforeDup false (cleanProcess targetExt dst m orc tbl).2.2 = true ∧
      dupBeforeDownload false (cleanProcess targetExt dst m orc tbl).2.2 = true := by
  obtain ⟨mid, cid, media⟩ := m
  cases media with
  | none => exact ⟨rfl, rfl⟩
  | some d =>
    obtain ⟨did, dsz, ddate, dfn⟩ := d
    cases dfn with
    | none => exact ⟨rfl, rfl⟩
    | some fn =>
      simp only [cleanProcess]
      cases hext : extMatches fn targetExt with
      | false =>
        simp [hext, extBeforeDup, dupBeforeDownload, isDupCheckEv, isExtPass,
          isDownloadEv, isDupFree]
      | true =>
        cases hdup : clean_is_processed
            (cleanFileHash ⟨did, dsz, ddate, some fn⟩) tbl with
        | true =>
          simp [hext, hdup, extBeforeDup, dupBeforeDownload, isDupCheckEv,
            isExtPass, isDownloadEv, isDupFree]
        | false =>
          cases hdl : orc.downloadOk with
          | false =>
            simp [hext, hdup, hdl, extBeforeDup, dupBeforeDownload, isDupCheckEv,
              isExtPass, isDownloadEv, isDupFree]
          | true =>
            cases hsend : (sendCleanFile dst orc.dlPath fn orc.pubs orc.times).1 with
            | true =>
              simp [hext, hdup, hdl, hsend, extBeforeDup, dupBeforeDownload,
                isDupCheckEv, isExtPass, isDownloadEv, isDupFree,
                extBeforeDup_true, dupBeforeDownload_true]
            | false =>
              simp [hext, hdup, hdl, hsend, extBeforeDup, dupBeforeDownload,
                isDupCheckEv, isExtPass, isDownloadEv, isDupFree,
                extBeforeDup_true, dupBeforeDownload_true]

theorem userProcess_order (targetExt : List Char) (m : Msg)
    (sent : List (Nat × Nat)) (pubs : List PubResult) :
    noDownload (userProcess targetExt m sent pubs).2.2 = true ∧
      msgDupBeforeExt false (userProcess targetExt m sent pubs).2.2 = true := by
  obtain ⟨mid, cid, media⟩ := m
  cases media with
  | none => exact ⟨rfl, rfl⟩
  | some d =>
    obtain ⟨did, dsz, ddate, dfn⟩ := d
    simp only [userProcess]
    cases hdup : sent.contains (mid, cid) with
    | true =>
      simp [hdup, noDownload, msgDupBeforeExt, isDownloadEv, isExtCheckEv,
        isDupCheckEv]
    | false =>
      cases dfn with
      | none =>
        simp [hdup, noDownload, msgDupBeforeExt, isDownloadEv, isExtCheckEv,
          isDupCheckEv]
      | some fn =>
        cases hext : extMatches fn targetExt with
        | false =>
          simp [hdup, hext, noDownload, msgDupBeforeExt, isDownloadEv,
            isExtCheckEv, isDupCheckEv]
        | true =>
          constructor
          · have h := forwardMsg_no_download mid cid sent pubs
            simp [hdup, hext, noDownload, isDownloadEv] at h ⊢
            exact h
          · simp [hdup, hext, msgDupBeforeExt, isDupCheckEv, isExtCheckEv,
              msgDupBeforeExt_true]

/-! ### Helper lemmas: send_file_with_new_name evaluation -/

theorem sendFileMain_ok (pfx dst : List Char) (showSeq : Bool)
    (filePath origName : List Char) (fileSizeB : Nat) (chan : List Char)
    (mid cid : Nat) (d : Document) (ts : List Nat) (db : MainDb) (c : Nat)
    (hc : lookupCounter fileCounter db.counters = some c)
    (hp : is_file_processed (mainFileHash d) db = false) :
    sendFileMain pfx dst showSeq filePath origName fileSizeB chan
        ⟨mid, cid, some d⟩ [PubResult.ok] ts db =
      (true,
       ⟨updateCounter fileCounter (c + 1) db.counters,
        db.processed ++ [⟨mainFileHash d, origName,
          generate_new_filename pfx dst showSeq origName (c + 1), c + 1, chan,
          fileSizeB⟩],
        db.activity ++ [(actFileSent,
          generate_new_filename pfx dst showSeq origName (c + 1))]⟩,
       [Ev.seqAlloc (c + 1),
        Ev.publish filePath (generate_new_filename pfx dst showSeq origName (c + 1))
          ⟨generate_new_filename pfx dst showSeq origName (c + 1), some (c + 1),
           dst, some fileSizeB, ts.headD 0⟩,
        Ev.ledgerWrite, Ev.audit actFileSent]) := by
  have hp' : db.processed.any
      (fun q => q.file_hash == mainFileHash d) = false := by
    simpa [is_file_processed] using hp
  simp [sendFileMain, get_next_sequence_number, save_processed_file, hc, hp']

theorem sendFileMain_err (pfx dst : List Char) (showSeq : Bool)
    (filePath origName : List Char) (fileSizeB : Nat) (chan : List Char)
    (m : Msg) (ts : List Nat) (db : MainDb) (c : Nat)
    (hc : lookupCounter fileCounter db.counters = some c) :
    sendFileMain pfx dst showSeq filePath origName fileSizeB chan
        m [PubResult.err] ts db =
      (false,
       ⟨updateCounter fileCounter (c + 1) db.counters, db.processed,
        db.activity ++ [(actSendError, [])]⟩,
       [Ev.seqAlloc (c + 1),
        Ev.publish filePath (generate_new_filename pfx dst showSeq origName (c + 1))
          ⟨generate_new_filename pfx dst showSeq origName (c + 1), some (c + 1),
           dst, some fileSizeB, ts.headD 0⟩,
        Ev.audit actSendError]) := by
  simp [sendFileMain, get_next_sequence_number, hc]

theorem sendFileMain_flood (pfx dst : List Char) (showSeq : Bool)
    (filePath origName : List Char) (fileSizeB : Nat) (chan : List Char)
    (m : Msg) (n : Nat) (prs : List PubResult) (ts : List Nat) (db : MainDb)
    (c : Nat) (hc : lookupCounter fileCounter db.counters = some c) :
    sendFileMain pfx dst showSeq filePath origName fileSizeB chan
        m (PubResult.flood n :: prs) ts db =
      ((sendFileMain pfx dst showSeq filePath origName fileSizeB chan m prs
          ts.tail
          { db with counters := updateCounter fileCounter (c + 1) db.counters }).1,
       (sendFileMain pfx dst showSeq filePath origName fileSizeB chan m prs
          ts.tail
          { db with counters := updateCounter fileCounter (c + 1) db.counters }).2.1,
       Ev.seqAlloc (c + 1) ::
         Ev.publish filePath (generate_new_filename pfx dst showSeq origName (c + 1))
           ⟨generate_new_filename pfx dst showSeq origName (c + 1), some (c + 1),
            dst, some fileSizeB, ts.headD 0⟩ ::
         Ev.sleepEv n ::
         (sendFileMain pfx dst showSeq filePath origName fileSizeB chan m prs
            ts.tail
            { db with counters := updateCounter fileCounter (c + 1) db.counters }).2.2) := by
  simp [sendFileMain, get_next_sequence_number, hc]

theorem sendCleanFile_flood_ok (dst filePath fn : List Char) (n : Nat)
    (ts : List Nat) :
    sendCleanFile dst filePath fn [PubResult.flood n, PubResult.ok] ts =
      (true,
       [Ev.publish filePath fn ⟨fn, none, dst, none, ts.headD 0⟩,
        Ev.sleepEv n,
        Ev.publish filePath fn ⟨fn, none, dst, none, ts.tail.headD 0⟩]) := by
  simp [sendCleanFile]

/-! ### Helper lemmas: pipeline branch evaluations -/

theorem mainProcess_extfail (targetExt pfx dst : List Char) (showSeq : Bool)
    (mid cid : Nat) (d : Document) (fn chanName : List Char) (orc : Oracle)
    (db : MainDb) (hf : d.filename = some fn)
    (hext : extMatches fn targetExt = false) :
    mainProcess targetExt pfx dst showSeq ⟨mid, cid, some d⟩ chanName orc db =
      (false, db, [Ev.extCheck fn false]) := by
  obtain ⟨did, dsz, ddate, dfn⟩ := d
  simp only at hf
  subst hf
  simp [mainProcess, hext]

theorem mainProcess_dup (targetExt pfx dst : List Char) (showSeq : Bool)
    (mid cid : Nat) (d : Document) (fn chanName : List Char) (orc : Oracle)
    (db : MainDb) (hf : d.filename = some fn)
    (hext : extMatches fn targetExt = true)
    (hdup : is_file_processed (mainFileHash d) db = true) :
    mainProcess targetExt pfx dst showSeq ⟨mid, cid, some d⟩ chanName orc db =
      (false, db, [Ev.extCheck fn true, Ev.dupCheck (mainFileHash d) true]) := by
  obtain ⟨did, dsz, ddate, dfn⟩ := d
  simp only at hf
  subst hf
  simp [mainProcess, hext, hdup]

theorem cleanProcess_extfail (targetExt dst : List Char) (mid cid : Nat)
    (d : Document) (fn : List Char) (orc : Oracle) (tbl : List CleanRow)
    (hf : d.filename = some fn) (hext : extMatches fn targetExt = false) :
    cleanProcess targetExt dst ⟨mid, cid, some d⟩ orc tbl =
      (false, tbl, [Ev.extCheck fn false]) := by
  obtain ⟨did, dsz, ddate, dfn⟩ := d
  simp only at hf
  subst hf
  simp [cleanProcess, hext]

theorem cleanProcess_dup (targetExt dst : List Char) (mid cid : Nat)
    (d : Document) (fn : List Char) (orc : Oracle) (tbl : List CleanRow)
    (hf : d.filename = some fn) (hext : extMatches fn targetExt = true)
    (hdup : clean_is_processed (cleanFileHash d) tbl = true) :
    cleanProcess targetExt dst ⟨mid, cid, some d⟩ orc tbl =
      (false, tbl, [Ev.extCheck fn true, Ev.dupCheck (cleanFileHash d) true]) := by
  obtain ⟨did, dsz, ddate, dfn⟩ := d
  simp only at hf
  subst hf
  simp [cleanProcess, hext, hdup]

theorem cleanProcess_ok (targetExt dst : List Char) (mid cid : Nat)
    (d : Document) (fn : List Char) (orc : Oracle) (tbl : List CleanRow)
    (prs : List PubResult) (hf : d.filename = some fn)
    (hext : extMatches fn targetExt = true)
    (hdup : clean_is_processed (cleanFileHash d) tbl = false)
    (hdl : orc.downloadOk = true)
    (hpubs : orc.pubs = PubResult.ok :: prs) :
    cleanProcess targetExt dst ⟨mid, cid, some d⟩ orc tbl =
      (true, mark_file_as_processed ⟨cleanFileHash d, mid, cid, fn⟩ tbl,
       [Ev.extCheck fn true, Ev.dupCheck (cleanFileHash d) false, Ev.download true,
        Ev.publish orc.dlPath fn ⟨fn, none, dst, none, orc.times.headD 0⟩,
        Ev.ledgerWrite]) := by
  obtain ⟨did, dsz, ddate, dfn⟩ := d
  simp only at hf
  subst hf
  simp [cleanProcess, hext, hdup, hdl, hpubs, sendCleanFile]

theorem cleanFileHash_congr (d1 d2 : Document) (hid : d1.docId = d2.docId)
    (hsz : d1.size = d2.size) : cleanFileHash d1 = cleanFileHash d2 := by
  unfold cleanFileHash
  rw [hid, hsz]

theorem mainFileHash_congr (d1 d2 : Document) (hid : d1.docId = d2.docId)
    (hsz : d1.size = d2.size) (hdt : d1.date = d2.date) :
    mainFileHash d1 = mainFileHash d2 := by
  unfold mainFileHash
  rw [hid, hsz, hdt]

/-! ### The claims -/

/-- C7: the filename generator, on original name My:Report*.npvt, prefix
Rel_, sequence number 7, destination id archive, sequence display enabled,
sanitizes the base name to MyReport and returns exactly
Rel_0007_archive_MyReport.npvt. -/
theorem claim7_naming_example :
    cleanBase "My:Report*".data = "MyReport".data ∧
    clean_filename "My:Report*.npvt".data = "MyReport.npvt".data ∧
    generate_new_filename "Rel_".data "archive".data true
        "My:Report*.npvt".data 7 =
      "Rel_0007_archive_MyReport.npvt".data := by
  refine ⟨by decide, by decide, by decide⟩

/-- C8: sanitization of the base name removes every occurrence of the nine
forbidden characters, collapses whitespace runs to single spaces, trims
leading and trailing whitespace, and truncates a base name longer than 50
characters to exactly 50, all before any suffix is appended by
clean_filename. -/
theorem claim8_sanitization (s : List Char) :
    (∀ c ∈ cleanBase s, isForbidden c = false) ∧
    (∀ c ∈ cleanBase s, isWs c = true → c = ' ') ∧
    noAdjWs (cleanBase s) = true ∧
    (∀ c, (strippedBase s).head? = some c → isWs c = false) ∧
    (∀ c, (strippedBase s).reverse.head? = some c → isWs c = false) ∧
    cleanBase s = (strippedBase s).take 50 ∧
    (50 < (strippedBase s).length → (cleanBase s).length = 50) ∧
    (cleanBase s).length ≤ 50 ∧
    clean_filename s =
      (if (splitExtLast s).2.isEmpty then cleanBase (splitExtLast s).1
       else cleanBase (splitExtLast s).1 ++ '.' :: (splitExtLast s).2) := by
  refine ⟨?_, ?_, ?_, ?_, ?_, ?_, ?_, ?_, ?_⟩
  · intro c hc
    exact cleanBase_not_forbidden s c hc
  · intro c hc hw
    exact cleanBase_ws_space s c hc hw
  · exact noAdjWs_cleanBase s
  · intro c hc
    exact head?_pyStrip (collapseWs (removeInvalid s)) c hc
  · intro c hc
    exact last_pyStrip (collapseWs (removeInvalid s)) c hc
  · exact cleanBase_eq_take s
  · intro h
    rw [cleanBase_eq_take, List.length_take]
    omega
  · rw [cleanBase_eq_take, List.length_take]
    omega
  · rfl

/-- Witness for C8 at a concrete 60-character base name: the truncation
clause fires and yields exactly 50 characters. -/
theorem claim8_witness :
    (cleanBase (List.replicate 60 'a')).length = 50 :=
  (claim8_sanitization (List.replicate 60 'a')).2.2.2.2.2.2.1 (by decide)

/-- C9: the extension filter accepts a filename iff the configured target
extension (lowercased at config load) is a suffix of the lowercased
filename, i.e. case-insensitive suffix comparison; filenames equal up to
letter case are accepted alike. -/
theorem claim9_extension_filter (fn fn2 raw : List Char) :
    (extMatches fn (configLowerExt raw) = true ↔
      ∃ pre, pyLower fn = pre ++ pyLower raw) ∧
    (pyLower fn = pyLower fn2 →
      extMatches fn (configLowerExt raw) = extMatches fn2 (configLowerExt raw)) := by
  constructor
  · unfold extMatches configLowerExt
    exact isSuffixOf_iff_exists (pyLower raw) (pyLower fn)
  · intro h
    unfold extMatches configLowerExt
    rw [h]

/-- Witness for C9: two filenames differing only in letter case are
accepted alike for the configured extension .NpVt. -/
theorem claim9_witness :
    extMatches "A.NPVT".data (configLowerExt ".NpVt".data) =
      extMatches "a.npvt".data (configLowerExt ".NpVt".data) :=
  (claim9_extension_filter "A.NPVT".data "a.npvt".data ".NpVt".data).2 (by decide)

/-- C10 counterexample: for the original name .a. the sanitized base name
.a is non-empty, yet extract_original_name applied to the generated
filename returns none, because generate_new_filename re-splits the cleaned
name .a at its last dot into an empty base part and extension a, so no
underscore-base segment is appended and the regex cannot match. -/
theorem claim10_counterexample :
    cleanBase (splitExtLast ".a.".data).1 ≠ [] ∧
    extract_original_name "Rel_".data "archive".data
      (generate_new_filename "Rel_".data "archive".data true ".a.".data 7)
      = none := by
  refine ⟨by decide, by decide⟩

/-- C10 amended: whenever the re-split base part of the cleaned filename
(the part before its last dot, as generate_new_filename computes it) is
non-empty, extract_original_name inverts generate_new_filename and returns
the first 20 characters of that base part followed by a dot and the
re-split extension when one is present. -/
theorem claim10_round_trip (pfx dst orig : List Char) (seqNum : Nat)
    (h : (splitExtLast (clean_filename orig)).1 ≠ []) :
    extract_original_name pfx dst
        (generate_new_filename pfx dst true orig seqNum) =
      some ((splitExtLast (clean_filename orig)).1.take 20 ++
        (if (splitExtLast (clean_filename orig)).2.isEmpty then []
         else '.' :: (splitExtLast (clean_filename orig)).2)) := by
  rw [generate_decomp pfx dst orig seqNum h]
  exact extract_on_generated pfx dst _ seqNum

/-- Witness for C10 amended at the concrete example name. -/
theorem claim10_witness :
    extract_original_name "Rel_".data "archive".data
      (generate_new_filename "Rel_".data "archive".data true
        "My:Report*.npvt".data 7) = some "MyReport.npvt".data := by
  have h := claim10_round_trip "Rel_".data "archive".data
    "My:Report*.npvt".data 7 (by decide)
  rw [h]
  decide

/-- C1 counterexample: in the user_monitor.py pipeline, a message whose
(message id, channel id) pair is already in the sent ledger triggers the
duplicate-ledger check with no prior extension check, so the "extension
check before duplicate check" ordering is violated by that pipeline. -/
theorem claim1_counterexample :
    extBeforeDup false
      (userProcess ".npvt".data ⟨5, 9, some ⟨1, 2, 3, some "x.npvt".data⟩⟩
        [(5, 9)] []).2.2 = false := by
  decide

/-- C1 amended: in main.py and clean_monitor.py process_message the
extension check precedes the fingerprint/duplicate check and the
fingerprint check precedes any download (a message failing the extension
check produces only the failed extension-check event, and a message whose
fingerprint is in the ledger stops right after the duplicate check, so no
download is issued for either); in user_monitor.py process_message no
download is ever issued and the message-keyed duplicate-ledger check
precedes the extension check. -/
theorem claim1_pipeline_ordering :
    (∀ (targetExt pfx dst : List Char) (showSeq : Bool) (m : Msg)
        (chanName : List Char) (orc : Oracle) (db : MainDb),
      extBeforeDup false
          (mainProcess targetExt pfx dst showSeq m chanName orc db).2.2 = true ∧
        dupBeforeDownload false
          (mainProcess targetExt pfx dst showSeq m chanName orc db).2.2 = true) ∧
    (∀ (targetExt dst : List Char) (m : Msg) (orc : Oracle)
        (tbl : List CleanRow),
      extBeforeDup false (cleanProcess targetExt dst m orc tbl).2.2 = true ∧
        dupBeforeDownload false (cleanProcess targetExt dst m orc tbl).2.2 = true) ∧
    (∀ (targetExt : List Char) (m : Msg) (sent : List (Nat × Nat))
        (pubs : List PubResult),
      noDownload (userProcess targetExt m sent pubs).2.2 = true ∧
        msgDupBeforeExt false (userProcess targetExt m sent pubs).2.2 = true) ∧
    (∀ (targetExt pfx dst : List Char) (showSeq : Bool) (mid cid : Nat)
        (d : Document) (fn chanName : List Char) (orc : Oracle) (db : MainDb),
      d.filename = some fn → extMatches fn targetExt = false →
      mainProcess targetExt pfx dst showSeq ⟨mid, cid, some d⟩ chanName orc db =
        (false, db, [Ev.extCheck fn false])) ∧
    (∀ (targetExt pfx dst : List Char) (showSeq : Bool) (mid cid : Nat)
        (d : Document) (fn chanName : List Char) (orc : Oracle) (db : MainDb),
      d.filename = some fn → extMatches fn targetExt = true →
      is_file_processed (mainFileHash d) db = true →
      mainProcess targetExt pfx dst showSeq ⟨mid, cid, some d⟩ chanName orc db =
        (false, db, [Ev.extCheck fn true, Ev.dupCheck (mainFileHash d) true])) ∧
    (∀ (targetExt dst : List Char) (mid cid : Nat) (d : Document)
        (fn : List Char) (orc : Oracle) (tbl : List CleanRow),
      d.filename = some fn → extMatches fn targetExt = false →
      cleanProcess targetExt dst ⟨mid, cid, some d⟩ orc tbl =
        (false, tbl, [Ev.extCheck fn false])) ∧
    (∀ (targetExt dst : List Char) (mid cid : Nat) (d : Document)
        (fn : List Char) (orc : Oracle) (tbl : List CleanRow),
      d.filename = some fn → extMatches fn targetExt = true →
      clean_is_processed (cleanFileHash d) tbl = true →
      cleanProcess targetExt dst ⟨mid, cid, some d⟩ orc tbl =
        (false, tbl, [Ev.extCheck fn true, Ev.dupCheck (cleanFileHash d) true])) :=
  ⟨mainProcess_order, cleanProcess_order, userProcess_order,
   mainProcess_extfail, mainProcess_dup, cleanProcess_extfail, cleanProcess_dup⟩

/-- Witness for C1 amended: a concrete extension-mismatching message in
the main.py pipeline yields only the failed extension-check event. -/
theorem claim1_witness :
    mainProcess ".npvt".data "Rel_".data "archive".data true
        ⟨1, 2, some ⟨1, 2, 3, some "x.txt".data⟩⟩ "src".data
        ⟨[], [], true, [], 0⟩ ⟨[], [], []⟩ =
      (false, (⟨[], [], []⟩ : MainDb), [Ev.extCheck "x.txt".data false]) :=
  claim1_pipeline_ordering.2.2.2.1 ".npvt".data "Rel_".data "archive".data true
    1 2 ⟨1, 2, 3, some "x.txt".data⟩ "x.txt".data "src".data
    ⟨[], [], true, [], 0⟩ ⟨[], [], []⟩ (by decide) (by decide)

/-- C2 counterexample: DatabaseManager.save_processed_file raises (none)
when the fingerprint already exists, and recording twice through
CleanFileMonitor.mark_file_as_processed stores the second recording, not
the first. -/
theorem claim2_counterexample :
    save_processed_file ⟨"h".data, "a".data, "b".data, 1, "c".data, 2⟩
        ⟨[], [⟨"h".data, "x".data, "y".data, 0, "z".data, 1⟩], []⟩ = none ∧
    clean_lookup "h".data
        (mark_file_as_processed ⟨"h".data, 2, 2, "b".data⟩
          (mark_file_as_processed ⟨"h".data, 1, 1, "a".data⟩ [])) =
      some ⟨"h".data, 2, 2, "b".data⟩ ∧
    (⟨"h".data, 2, 2, "b".data⟩ : CleanRow) ≠ ⟨"h".data, 1, 1, "a".data⟩ := by
  refine ⟨by decide, by decide, by decide⟩

/-- C2 amended: mark_file_as_processed (INSERT OR REPLACE) never raises,
and after one or many recordings of a fingerprint has(F) is true and the
stored entry equals the most recent recording; save_processed_file (plain
INSERT into a PRIMARY KEY table) raises a caller-visible error when the
fingerprint already exists. -/
theorem claim2_ledger_record (tbl : List CleanRow) (r r' : CleanRow)
    (hh : r'.file_hash = r.file_hash) (db : MainDb) (row : ProcRow)
    (hrow : is_file_processed row.file_hash db = true) :
    clean_is_processed r.file_hash (mark_file_as_processed r tbl) = true ∧
    clean_lookup r.file_hash (mark_file_as_processed r tbl) = some r ∧
    clean_lookup r.file_hash
        (mark_file_as_processed r' (mark_file_as_processed r tbl)) = some r' ∧
    save_processed_file row db = none := by
  refine ⟨clean_is_processed_mark_same r.file_hash r tbl rfl,
    clean_lookup_mark r tbl, ?_, save_none_of_processed row db hrow⟩
  rw [← hh]
  exact clean_lookup_mark r' (mark_file_as_processed r tbl)

/-- Witness for C2 amended at concrete rows. -/
theorem claim2_witness :
    clean_is_processed "h".data
        (mark_file_as_processed ⟨"h".data, 1, 1, "a".data⟩ []) = true ∧
    clean_lookup "h".data
        (mark_file_as_processed ⟨"h".data, 1, 1, "a".data⟩ []) =
      some ⟨"h".data, 1, 1, "a".data⟩ ∧
    clean_lookup "h".data
        (mark_file_as_processed ⟨"h".data, 2, 2, "b".data⟩
          (mark_file_as_processed ⟨"h".data, 1, 1, "a".data⟩ [])) =
      some ⟨"h".data, 2, 2, "b".data⟩ ∧
    save_processed_file ⟨"h".data, "a".data, "b".data, 1, "c".data, 2⟩
        ⟨[], [⟨"h".data, "x".data, "y".data, 0, "z".data, 1⟩], []⟩ = none :=
  claim2_ledger_record [] ⟨"h".data, 1, 1, "a".data⟩ ⟨"h".data, 2, 2, "b".data⟩
    (by decide) ⟨[], [⟨"h".data, "x".data, "y".data, 0, "z".data, 1⟩], []⟩
    ⟨"h".data, "a".data, "b".data, 1, "c".data, 2⟩ (by decide)

/-- C5 counterexample: for a counter name with no row in the counters
table, two successive next() calls both return 1 (a repeat, not strictly
increasing) and the returned value is not persisted: current() still reads
0 afterwards, because the SQL UPDATE matches no row. -/
theorem claim5_counterexample :
    (get_next_sequence_number "x".data ⟨[], [], []⟩).1 = 1 ∧
    (get_next_sequence_number "x".data
      (get_next_sequence_number "x".data ⟨[], [], []⟩).2).1 = 1 ∧
    get_current_sequence_number "x".data
      (get_next_sequence_number "x".data ⟨[], [], []⟩).2 = 0 := by
  refine ⟨by decide, by decide, by decide⟩

/-- C5 amended: for every counter whose row exists in the counters table
(as init_counter creates it), k successive next() calls return the
consecutive strictly increasing values v+1, ..., v+k and the last value is
persisted so current() observes it; init_counter on a fresh name creates
the row at 0 and the first next() then returns 1; on a name with no row,
next() returns 1 but persists nothing (the database is unchanged). -/
theorem claim5_sequence_allocator :
    (∀ (db : MainDb) (name : List Char) (v k : Nat),
      lookupCounter name db.counters = some v →
      (nextIter name k db).1 = (List.range k).map (fun i => v + 1 + i) ∧
      get_current_sequence_number name (nextIter name k db).2 = v + k) ∧
    (∀ (db : MainDb) (name : List Char),
      lookupCounter name db.counters = none →
      lookupCounter name (init_counter name db).counters = some 0 ∧
      (get_next_sequence_number name (init_counter name db)).1 = 1 ∧
      (get_next_sequence_number name db).1 = 1 ∧
      (get_next_sequence_number name db).2 = db) := by
  constructor
  · intro db name v k h
    obtain ⟨ha, hb⟩ := nextIter_spec name k db v h
    exact ⟨ha, by simp [get_current_sequence_number, hb]⟩
  · intro db name h
    have hinit : lookupCounter name (init_counter name db).counters = some 0 := by
      unfold init_counter
      rw [if_neg (by simp [h])]
      exact lookup_none_append name 0 db.counters h
    refine ⟨hinit, ?_, ?_, ?_⟩
    · simp [get_next_sequence_number, hinit]
    · simp [get_next_sequence_number, h]
    · simp [get_next_sequence_number, h, update_of_lookup_none name 1 db.counters h]

/-- Witness for C5 amended: an initialized counter returns 1, 2, 3 and
persists 3. -/
theorem claim5_witness :
    (nextIter fileCounter 3 ⟨[(fileCounter, 0)], [], []⟩).1 = [1, 2, 3] ∧
    get_current_sequence_number fileCounter
      (nextIter fileCounter 3 ⟨[(fileCounter, 0)], [], []⟩).2 = 3 := by
  obtain ⟨ha, hb⟩ := claim5_sequence_allocator.1 ⟨[(fileCounter, 0)], [], []⟩
    fileCounter 0 3 (by decide)
  refine ⟨?_, ?_⟩
  · rw [ha]
    decide
  · simpa using hb

/-- C3 counterexample: a publish attempt that fails with a generic error
still consumes a sequence number: the counter advances from 0 to 1, no
ledger entry is written, and the trace shows the allocation happening
before the publish call, contradicting allocate-after-publish. -/
theorem claim3_counterexample :
    (sendFileMain "Rel_".data "archive".data true "tmp".data "a.npvt".data 2
        "src".data ⟨5, 9, some ⟨1, 2, 10, some "a.npvt".data⟩⟩ [PubResult.err]
        [0] ⟨[(fileCounter, 0)], [], []⟩).1 = false ∧
    get_current_sequence_number fileCounter
      (sendFileMain "Rel_".data "archive".data true "tmp".data "a.npvt".data 2
        "src".data ⟨5, 9, some ⟨1, 2, 10, some "a.npvt".data⟩⟩ [PubResult.err]
        [0] ⟨[(fileCounter, 0)], [], []⟩).2.1 = 1 ∧
    (sendFileMain "Rel_".data "archive".data true "tmp".data "a.npvt".data 2
        "src".data ⟨5, 9, some ⟨1, 2, 10, some "a.npvt".data⟩⟩ [PubResult.err]
        [0] ⟨[(fileCounter, 0)], [], []⟩).2.2.take 2 =
      [Ev.seqAlloc 1,
       Ev.publish "tmp".data "Rel_0001_archive_a.npvt".data
         ⟨"Rel_0001_archive_a.npvt".data, some 1, "archive".data, some 2, 0⟩] := by
  refine ⟨by decide, by decide, by decide⟩

/-- C3 amended: send_file_with_new_name allocates the sequence number
before the publish call, in the order allocate, publish, persist ledger
entry, emit audit record; the counter is incremented by exactly one per
attempt, so a successful publish consumes one sequence number and so does
a failed publish (which writes no ledger entry). -/
theorem claim3_sequence_order (pfx dst : List Char) (showSeq : Bool)
    (filePath origName : List Char) (fileSizeB : Nat) (chan : List Char)
    (mid cid : Nat) (d : Document) (ts : List Nat) (db : MainDb) (c : Nat)
    (hc : lookupCounter fileCounter db.counters = some c)
    (hp : is_file_processed (mainFileHash d) db = false) :
    (sendFileMain pfx dst showSeq filePath origName fileSizeB chan
        ⟨mid, cid, some d⟩ [PubResult.ok] ts db).1 = true ∧
    (sendFileMain pfx dst showSeq filePath origName fileSizeB chan
        ⟨mid, cid, some d⟩ [PubResult.ok] ts db).2.2 =
      [Ev.seqAlloc (c + 1),
       Ev.publish filePath (generate_new_filename pfx dst showSeq origName (c + 1))
         ⟨generate_new_filename pfx dst showSeq origName (c + 1), some (c + 1),
          dst, some fileSizeB, ts.headD 0⟩,
       Ev.ledgerWrite, Ev.audit actFileSent] ∧
    get_current_sequence_number fileCounter
      (sendFileMain pfx dst showSeq filePath origName fileSizeB chan
        ⟨mid, cid, some d⟩ [PubResult.ok] ts db).2.1 = c + 1 ∧
    (sendFileMain pfx dst showSeq filePath origName fileSizeB chan
        ⟨mid, cid, some d⟩ [PubResult.ok] ts db).2.1.processed =
      db.processed ++ [⟨mainFileHash d, origName,
        generate_new_filename pfx dst showSeq origName (c + 1), c + 1, chan,
        fileSizeB⟩] ∧
    (sendFileMain pfx dst showSeq filePath origName fileSizeB chan
        ⟨mid, cid, some d⟩ [PubResult.err] ts db).1 = false ∧
    (sendFileMain pfx dst showSeq filePath origName fileSizeB chan
        ⟨mid, cid, some d⟩ [PubResult.err] ts db).2.2 =
      [Ev.seqAlloc (c + 1),
       Ev.publish filePath (generate_new_filename pfx dst showSeq origName (c + 1))
         ⟨generate_new_filename pfx dst showSeq origName (c + 1), some (c + 1),
          dst, some fileSizeB, ts.headD 0⟩,
       Ev.audit actSendError] ∧
    get_current_sequence_number fileCounter
      (sendFileMain pfx dst showSeq filePath origName fileSizeB chan
        ⟨mid, cid, some d⟩ [PubResult.err] ts db).2.1 = c + 1 ∧
    (sendFileMain pfx dst showSeq filePath origName fileSizeB chan
        ⟨mid, cid, some d⟩ [PubResult.err] ts db).2.1.processed =
      db.processed := by
  have hok := sendFileMain_ok pfx dst showSeq filePath origName fileSizeB chan
    mid cid d ts db c hc hp
  have herr := sendFileMain_err pfx dst showSeq filePath origName fileSizeB chan
    ⟨mid, cid, some d⟩ ts db c hc
  have hcur : lookupCounter fileCounter
      (updateCounter fileCounter (c + 1) db.counters) = some (c + 1) :=
    lookup_update_self fileCounter (c + 1) db.counters (by simp [hc])
  rw [hok, herr]
  refine ⟨rfl, rfl, ?_, rfl, rfl, rfl, ?_, rfl⟩
  · simp [get_current_sequence_number, hcur]
  · simp [get_current_sequence_number, hcur]

/-- Witness for C3 amended at a concrete database with counter value 0. -/
theorem claim3_witness :
    (sendFileMain "Rel_".data "archive".data true "tmp".data "a.npvt".data 2
        "src".data ⟨5, 9, some ⟨1, 2, 10, some "a.npvt".data⟩⟩ [PubResult.ok]
        [0] ⟨[(fileCounter, 0)], [], []⟩).1 = true ∧
    get_current_sequence_number fileCounter
      (sendFileMain "Rel_".data "archive".data true "tmp".data "a.npvt".data 2
        "src".data ⟨5, 9, some ⟨1, 2, 10, some "a.npvt".data⟩⟩ [PubResult.ok]
        [0] ⟨[(fileCounter, 0)], [], []⟩).2.1 = 1 := by
  have h := claim3_sequence_order "Rel_".data "archive".data true "tmp".data
    "a.npvt".data 2 "src".data 5 9 ⟨1, 2, 10, some "a.npvt".data⟩ [0]
    ⟨[(fileCounter, 0)], [], []⟩ 0 (by decide) (by decide)
  exact ⟨h.1, h.2.2.1⟩

/-- C4 counterexample: with a FloodWaitError followed by success, the two
publish attempts of main.py use different filenames (sequence numbers 1
and 2), so the retry is not performed with identical arguments. -/
theorem claim4_counterexample :
    ((sendFileMain "Rel_".data "archive".data true "tmp".data "a.npvt".data 2
        "src".data ⟨5, 9, some ⟨1, 2, 10, some "a.npvt".data⟩⟩
        [PubResult.flood 5, PubResult.ok] [0, 1]
        ⟨[(fileCounter, 0)], [], []⟩).2.2.filter isPublishEv).map pubFilename =
      ["Rel_0001_archive_a.npvt".data, "Rel_0002_archive_a.npvt".data] ∧
    "Rel_0001_archive_a.npvt".data ≠ "Rel_0002_archive_a.npvt".data := by
  refine ⟨by decide, by decide⟩

/-- C4 amended: a RateLimited(n) publish outcome causes exactly one sleep
of exactly n seconds followed by exactly one retry of the send routine; in
main.py the retry allocates a fresh sequence number, so its publish call
uses a new filename and caption (same file bytes); in clean_monitor.py the
retry publishes the same file and same filename, with the caption
timestamp regenerated. -/
theorem claim4_rate_limit (pfx dst : List Char) (showSeq : Bool)
    (filePath origName : List Char) (fileSizeB : Nat) (chan : List Char)
    (mid cid : Nat) (d : Document) (n : Nat) (ts : List Nat) (db : MainDb)
    (c : Nat) (hc : lookupCounter fileCounter db.counters = some c)
    (hp : is_file_processed (mainFileHash d) db = false) :
    sendFileMain pfx dst showSeq filePath origName fileSizeB chan
        ⟨mid, cid, some d⟩ [PubResult.flood n, PubResult.ok] ts db =
      (true,
       ⟨updateCounter fileCounter (c + 2)
          (updateCounter fileCounter (c + 1) db.counters),
        db.processed ++ [⟨mainFileHash d, origName,
          generate_new_filename pfx dst showSeq origName (c + 2), c + 2, chan,
          fileSizeB⟩],
        db.activity ++ [(actFileSent,
          generate_new_filename pfx dst showSeq origName (c + 2))]⟩,
       [Ev.seqAlloc (c + 1),
        Ev.publish filePath (generate_new_filename pfx dst showSeq origName (c + 1))
          ⟨generate_new_filename pfx dst showSeq origName (c + 1), some (c + 1),
           dst, some fileSizeB, ts.headD 0⟩,
        Ev.sleepEv n,
        Ev.seqAlloc (c + 2),
        Ev.publish filePath (generate_new_filename pfx dst showSeq origName (c + 2))
          ⟨generate_new_filename pfx dst showSeq origName (c + 2), some (c + 2),
           dst, some fileSizeB, ts.tail.headD 0⟩,
        Ev.ledgerWrite, Ev.audit actFileSent]) ∧
    get_current_sequence_number fileCounter
      (sendFileMain pfx dst showSeq filePath origName fileSizeB chan
        ⟨mid, cid, some d⟩ [PubResult.flood n, PubResult.ok] ts db).2.1 = c + 2 ∧
    sendCleanFile dst filePath origName [PubResult.flood n, PubResult.ok] ts =
      (true,
       [Ev.publish filePath origName ⟨origName, none, dst, none, ts.headD 0⟩,
        Ev.sleepEv n,
        Ev.publish filePath origName
          ⟨origName, none, dst, none, ts.tail.headD 0⟩]) := by
  have hcur1 : lookupCounter fileCounter
      (updateCounter fileCounter (c + 1) db.counters) = some (c + 1) :=
    lookup_update_self fileCounter (c + 1) db.counters (by simp [hc])
  have hp' : is_file_processed (mainFileHash d)
      { db with counters := updateCounter fileCounter (c + 1) db.counters }
      = false := by
    simpa [is_file_processed] using hp
  have hstep := sendFileMain_flood pfx dst showSeq filePath origName fileSizeB
    chan ⟨mid, cid, some d⟩ n [PubResult.ok] ts db c hc
  have hok := sendFileMain_ok pfx dst showSeq filePath origName fileSizeB chan
    mid cid d ts.tail
    { db with counters := updateCounter fileCounter (c + 1) db.counters }
    (c + 1) hcur1 hp'
  have hcur2 : lookupCounter fileCounter
      (updateCounter fileCounter (c + 2)
        (updateCounter fileCounter (c + 1) db.counters)) = some (c + 2) :=
    lookup_update_self fileCounter (c + 2) _ (by simp [hcur1])
  refine ⟨?_, ?_, sendCleanFile_flood_ok dst filePath origName n ts⟩
  · rw [hstep, hok]
  · rw [hstep, hok]
    simp [get_current_sequence_number, hcur2]

/-- Witness for C4 amended: concrete run with counter 0 and a 5-second
FloodWait; after the single retry the counter reads 2 and the clean
monitor retry republishes the same filename. -/
theorem claim4_witness :
    get_current_sequence_number fileCounter
      (sendFileMain "Rel_".data "archive".data true "tmp".data "a.npvt".data 2
        "src".data ⟨5, 9, some ⟨1, 2, 10, some "a.npvt".data⟩⟩
        [PubResult.flood 5, PubResult.ok] [3, 4]
        ⟨[(fileCounter, 0)], [], []⟩).2.1 = 2 ∧
    sendCleanFile "archive".data "tmp".data "a.npvt".data
        [PubResult.flood 5, PubResult.ok] [3, 4] =
      (true,
       [Ev.publish "tmp".data "a.npvt".data
          ⟨"a.npvt".data, none, "archive".data, none, 3⟩,
        Ev.sleepEv 5,
        Ev.publish "tmp".data "a.npvt".data
          ⟨"a.npvt".data, none, "archive".data, none, 4⟩]) := by
  have h := claim4_rate_limit "Rel_".data "archive".data true "tmp".data
    "a.npvt".data 2 "src".data 5 9 ⟨1, 2, 10, some "a.npvt".data⟩ 5 [3, 4]
    ⟨[(fileCounter, 0)], [], []⟩ 0 (by decide) (by decide)
  exact ⟨h.2.1, by simpa using h.2.2⟩

/-- C6 counterexample: in main.py two documents with identical remote id
and byte size but different timestamps receive different fingerprints, and
after the first is relayed the second is not reported as a duplicate: its
fingerprint check finds nothing and it is downloaded and relayed again. -/
theorem claim6_counterexample :
    mainFileHash ⟨1, 2, 10, some "a.npvt".data⟩ ≠
      mainFileHash ⟨1, 2, 20, some "a.npvt".data⟩ ∧
    (mainProcess ".npvt".data "Rel_".data "archive".data true
      ⟨6, 9, some ⟨1, 2, 20, some "a.npvt".data⟩⟩ "src".data
      ⟨[PubResult.ok], [0], true, "tmp".data, 2⟩
      (mainProcess ".npvt".data "Rel_".data "archive".data true
        ⟨5, 9, some ⟨1, 2, 10, some "a.npvt".data⟩⟩ "src".data
        ⟨[PubResult.ok], [0], true, "tmp".data, 2⟩
        ⟨[(fileCounter, 0)], [], []⟩).2.1).1 = true ∧
    (mainProcess ".npvt".data "Rel_".data "archive".data true
      ⟨6, 9, some ⟨1, 2, 20, some "a.npvt".data⟩⟩ "src".data
      ⟨[PubResult.ok], [0], true, "tmp".data, 2⟩
      (mainProcess ".npvt".data "Rel_".data "archive".data true
        ⟨5, 9, some ⟨1, 2, 10, some "a.npvt".data⟩⟩ "src".data
        ⟨[PubResult.ok], [0], true, "tmp".data, 2⟩
        ⟨[(fileCounter, 0)], [], []⟩).2.1).2.2.take 3 =
      [Ev.extCheck "a.npvt".data true, Ev.dupCheck "1_2_20".data false,
       Ev.download true] := by
  refine ⟨by decide, by decide, by decide⟩

/-- C6 amended: in clean_monitor.py the fingerprint is id_size, so any two
documents with identical remote id and byte size share a fingerprint and
after the first is relayed the second is reported as a duplicate and
skipped; in main.py the fingerprint additionally embeds the document
timestamp, so identical id and size guarantee the same fingerprint only
when the timestamps also agree. -/
theorem claim6_fingerprint :
    (∀ d1 d2 : Document, d1.docId = d2.docId → d1.size = d2.size →
      cleanFileHash d1 = cleanFileHash d2) ∧
    (∀ d1 d2 : Document, d1.docId = d2.docId → d1.size = d2.size →
      d1.date = d2.date → mainFileHash d1 = mainFileHash d2) ∧
    (∀ (targetExt dst : List Char) (mid1 cid1 mid2 cid2 : Nat)
        (d1 d2 : Document) (fn1 fn2 : List Char) (orc1 orc2 : Oracle)
        (tbl : List CleanRow) (prs : List PubResult),
      d1.filename = some fn1 → d2.filename = some fn2 →
      d1.docId = d2.docId → d1.size = d2.size →
      extMatches fn1 targetExt = true → extMatches fn2 targetExt = true →
      clean_is_processed (cleanFileHash d1) tbl = false →
      orc1.downloadOk = true → orc1.pubs = PubResult.ok :: prs →
      (cleanProcess targetExt dst ⟨mid1, cid1, some d1⟩ orc1 tbl).1 = true ∧
      cleanProcess targetExt dst ⟨mid2, cid2, some d2⟩ orc2
          (cleanProcess targetExt dst ⟨mid1, cid1, some d1⟩ orc1 tbl).2.1 =
        (false,
         (cleanProcess targetExt dst ⟨mid1, cid1, some d1⟩ orc1 tbl).2.1,
         [Ev.extCheck fn2 true, Ev.dupCheck (cleanFileHash d2) true])) := by
  refine ⟨cleanFileHash_congr, mainFileHash_congr, ?_⟩
  intro targetExt dst mid1 cid1 mid2 cid2 d1 d2 fn1 fn2 orc1 orc2 tbl prs
    hf1 hf2 hid hsz he1 he2 hdup hdl hpubs
  have hrun1 := cleanProcess_ok targetExt dst mid1 cid1 d1 fn1 orc1 tbl prs
    hf1 he1 hdup hdl hpubs
  have hhash : cleanFileHash d1 = cleanFileHash d2 :=
    cleanFileHash_congr d1 d2 hid hsz
  constructor
  · rw [hrun1]
  · have hdup2 : clean_is_processed (cleanFileHash d2)
        ((cleanProcess targetExt dst ⟨mid1, cid1, some d1⟩ orc1 tbl).2.1)
        = true := by
      rw [hrun1]
      exact clean_is_processed_mark_same (cleanFileHash d2)
        ⟨cleanFileHash d1, mid1, cid1, fn1⟩ tbl hhash
    exact cleanProcess_dup targetExt dst mid2 cid2 d2 fn2 orc2 _ hf2 he2 hdup2

/-- Witness for C6 amended: concrete clean_monitor run where the first of
two same-id same-size documents is relayed and the second is skipped as a
duplicate. -/
theorem claim6_witness :
    (cleanProcess ".npvt".data "archive".data
      ⟨5, 9, some ⟨1, 2, 10, some "a.npvt".data⟩⟩
      ⟨[PubResult.ok], [0], true, "tmp".data, 2⟩ []).1 = true ∧
    cleanProcess ".npvt".data "archive".data
        ⟨6, 9, some ⟨1, 2, 20, some "a.npvt".data⟩⟩
        ⟨[], [], false, [], 0⟩
        (cleanProcess ".npvt".data "archive".data
          ⟨5, 9, some ⟨1, 2, 10, some "a.npvt".data⟩⟩
          ⟨[PubResult.ok], [0], true, "tmp".data, 2⟩ []).2.1 =
      (false,
       (cleanProcess ".npvt".data "archive".data
         ⟨5, 9, some ⟨1, 2, 10, some "a.npvt".data⟩⟩
         ⟨[PubResult.ok], [0], true, "tmp".data, 2⟩ []).2.1,
       [Ev.extCheck "a.npvt".data true,
        Ev.dupCheck (cleanFileHash ⟨1, 2, 20, some "a.npvt".data⟩) true]) :=
  claim6_fingerprint.2.2 ".npvt".data "archive".data 5 9 6 9
    ⟨1, 2, 10, some "a.npvt".data⟩ ⟨1, 2, 20, some "a.npvt".data⟩
    "a.npvt".data "a.npvt".data ⟨[PubResult.ok], [0], true, "tmp".data, 2⟩
    ⟨[], [], false, [], 0⟩ [] [] rfl rfl rfl rfl (by decide) (by decide)
    (by decide) rfl rfl
